import Mathlib

set_option maxRecDepth 100000

/-!
Shallow embedding of the options-hedge session of
`openbb_terminal/stocks/options/hedge/hedge_controller.py` (class `HedgeController`:
commands `add`, `rmv`, `pick`, `sop`, `plot`) and
`openbb_terminal/stocks/options/hedge/hedge_view.py` (`add_and_show_greeks`,
`show_calculated_hedge`).

Modelling conventions:
* Python floats are modelled as `ℚ`.
* The per-slot dictionaries `self.options["Option A"]` / `"Option B"` and the
  per-slot Greeks dictionaries `self.greeks[...]` are written and cleared as a
  whole by the code (all three of Delta/Gamma/Vega at once), so each slot is an
  `Option Leg` / `Option Greeks`; `none` models the empty dict `{}` and the
  membership test `"Delta" in self.greeks[slot]` becomes `isSome`.
* The external numerical functions `hedge_model.add_hedge_option` (Greeks
  calculator) and `hedge_model.calc_hedge` (weight solver) live in
  `hedge_model.py`, which is not part of the excerpt; they are abstracted as
  function parameters (`GreeksFn`, `CalcHedge`).  Every theorem below is
  quantified over them or instantiates them with an explicit probe function.
* The day count `float((date_obj - datetime.now()).days + 1)` depends on the
  clock; it enters the model as the parameter `daysRaw`.
* Console output carries no state, so each command returns its new state
  together with a small result value recording which message branch was taken
  and which external calls were made with which arguments.
* A `none` result of `call_pick` / `call_sop` models an uncaught Python
  exception (`iloc[-1]` on an empty frame, resp. the `KeyError` raised by
  `self.options["Option A"]["type"]` on an empty slot dict).
-/

namespace HedgeSpec

/-- Option kind: `"Put" if ns_parser.put else "Call"` in `call_add`, and the
`side_type` string compared against `"Put"` in `call_pick`. -/
inductive OptType
  | Call
  | Put
deriving DecidableEq

/-- The `underlying_type` string of `call_pick`, compared against `"Short"`. -/
inductive USide
  | Long
  | Short
deriving DecidableEq

/-- The dict built in `call_add`:
`{"type": opt_type, "sign": sign, "strike": strike, "implied_volatility": ..., "cost": cost}`. -/
structure Leg where
  type : OptType
  sign : Int
  strike : ℚ
  implied_volatility : ℚ
  cost : ℚ
deriving DecidableEq

/-- One populated Greeks dict `{"Delta": _, "Gamma": _, "Vega": _}`. -/
structure Greeks where
  delta : ℚ
  gamma : ℚ
  vega : ℚ
deriving DecidableEq

/-- One row of `self.calls` / `self.puts`: `(strike, impliedVolatility, lastPrice)`,
as zipped in the controller's constructor. -/
abbrev ChainRow := ℚ × ℚ × ℚ

/-- The mutable session state of `HedgeController` that the commands read and
write.  `portfolioKey` records whether `"Portfolio"` is still a key of
`self.options`: the constructor creates it, and the `rmv --all` branch replaces
`self.options` by `{"Option A": {}, "Option B": {}}`, dropping it. -/
structure HedgeState where
  calls : List ChainRow
  puts : List ChainRow
  current_price : ℚ
  optionA : Option Leg
  optionB : Option Leg
  portfolioKey : Bool
  greeksPortfolio : Option Greeks
  greeksA : Option Greeks
  greeksB : Option Greeks
  underlying : Int
  side : Option OptType
  amount : ℚ
  strike : ℚ
deriving DecidableEq

/-- The state as built by `HedgeController.__init__`: empty option and Greeks
dicts, `underlying = 0`, `side = ""`, `amount = 0.0`, `strike = 0.0`. -/
def initState (calls puts : List ChainRow) (price : ℚ) : HedgeState :=
  { calls := calls, puts := puts, current_price := price,
    optionA := none, optionB := none, portfolioKey := true,
    greeksPortfolio := none, greeksA := none, greeksB := none,
    underlying := 0, side := none, amount := 0, strike := 0 }

/-- The external Greeks calculator `hedge_model.add_hedge_option`
(price, implied_volatility, strike, time-in-years, side) — abstracted, since
`hedge_model.py` is not part of the excerpt. -/
abbrev GreeksFn := ℚ → ℚ → ℚ → ℚ → Int → Greeks

/-- The Greeks dictionary `self.greeks` as passed to the solver. -/
structure GreeksDict where
  portfolio : Option Greeks
  optionA : Option Greeks
  optionB : Option Greeks
deriving DecidableEq

/-- The current `self.greeks` dict of a state. -/
def greeksOf (s : HedgeState) : GreeksDict :=
  ⟨s.greeksPortfolio, s.greeksA, s.greeksB⟩

/-- The argument tuple of one `hedge_view.show_calculated_hedge` call:
`(self.amount, side, self.greeks, sign)`. -/
structure SolverArgs where
  amount : ℚ
  side : OptType
  greeks : GreeksDict
  sign : Int
deriving DecidableEq

/-- The return value of `hedge_model.calc_hedge`:
`(weight_option_a, weight_option_b, weight_shares, is_singular)`. -/
structure HedgeWeights where
  weight_option_a : ℚ
  weight_option_b : ℚ
  weight_shares : ℚ
  is_singular : Bool
deriving DecidableEq

/-- The external solver `hedge_model.calc_hedge`
(portfolio_option_amount, side, greeks, sign) — abstracted. -/
abbrev CalcHedge := ℚ → OptType → GreeksDict → Int → HedgeWeights

/-- What `hedge_view.show_calculated_hedge` prints: either the
"can not be solved" message, or the three weights (with `warned = true` exactly
when the singular-matrix warning is printed after them). -/
inductive HedgeDisplay
  | unsolvable
  | weights (wa wb ws : ℚ) (warned : Bool)
deriving DecidableEq

/-- `hedge_view.show_calculated_hedge`: runs `calc_hedge`, then
`if sum([weight_option_a, weight_option_b, weight_shares]):` shows the weights
table (plus the first-feasible-solution warning when `is_singular`), else prints
the "can not be solved" message. -/
def show_calculated_hedge (ch : CalcHedge) (portfolio_option_amount : ℚ)
    (side : OptType) (greeks : GreeksDict) (sign : Int) : HedgeDisplay :=
  let w := ch portfolio_option_amount side greeks sign
  if w.weight_option_a + w.weight_option_b + w.weight_shares ≠ 0 then
    HedgeDisplay.weights w.weight_option_a w.weight_option_b w.weight_shares
      w.is_singular
  else
    HedgeDisplay.unsolvable

/-- `hedge_view.add_and_show_greeks`: forwards its five arguments unchanged to
`hedge_model.add_hedge_option` and returns the `(delta, gamma, vega)` triple
(the table it prints carries no state). -/
def add_and_show_greeks (gf : GreeksFn) (price implied_volatility strike days : ℚ)
    (side : Int) : Greeks :=
  gf price implied_volatility strike days side

/-- In `call_add` and `call_pick`:
`days = float((date_obj - datetime.now()).days + 1); if days == 0.0: days = 0.01`.
Only the exactly-zero day count is replaced; negative values pass through. -/
def flooredDays (d : ℚ) : ℚ :=
  if d = 0 then 1 / 100 else d

/-- The two leg slots. -/
inductive Slot
  | A
  | B
deriving DecidableEq

/-- Outcome of one `add` command.  `invalidIndex` covers an identifier outside
the argparse `choices` range (the parser rejects it and "Please use a valid
index" is printed).  `noPick` is the "Please set the Underlying Asset Position"
message, `slotsFull` the "only accepts two options" message.  `added` records
the slot filled, the leg dict stored into `self.options`, the `side` and
`days/365` arguments passed to the Greeks calculator, the Greeks stored into
`self.greeks`, and the `show_calculated_hedge` call made afterwards (if any). -/
inductive AddResult
  | invalidIndex
  | noPick
  | slotsFull
  | added (slot : Slot) (leg : Leg) (sidePassed : Int) (tPassed : ℚ)
      (storedGreeks : Greeks) (solverCall : Option SolverArgs)
deriving DecidableEq

/-- The `show_calculated_hedge` call recorded in an `AddResult`, if any. -/
def AddResult.solverCall : AddResult → Option SolverArgs
  | AddResult.added _ _ _ _ _ sc => sc
  | _ => none

/-- The Greeks stored by an `add`, if it stored a leg. -/
def AddResult.storedGreeks : AddResult → Option Greeks
  | AddResult.added _ _ _ _ g _ => some g
  | _ => none

/-- The time-to-expiry argument passed to the Greeks calculator by an `add`,
if it stored a leg. -/
def AddResult.tPassed : AddResult → Option ℚ
  | AddResult.added _ _ _ t _ _ => some t
  | _ => none

/-- `HedgeController.call_add`.  After argparse validates the identifier
against the chosen chain, the body checks `if not self.greeks["Portfolio"]`,
reads the chain row, builds the option dict, maps the type to
`side = 1` for a Call and `-1` for a Put, floors the day count, stores the leg
into the first slot whose Greeks dict has no `"Delta"` (A before B) together
with its freshly computed Greeks, rejects when both are populated, and finally
calls `show_calculated_hedge(self.amount, option["type"], self.greeks, sign)`
when both slots' Greeks now hold a `"Delta"`. -/
def call_add (gf : GreeksFn) (daysRaw : ℚ) (put short : Bool) (identifier : ℕ)
    (s : HedgeState) : HedgeState × AddResult :=
  let optionsList := if put then s.puts else s.calls
  match optionsList[identifier]? with
  | none => (s, AddResult.invalidIndex)
  | some row =>
    if s.greeksPortfolio = none then
      (s, AddResult.noPick)
    else
      let opt_type := if put then OptType.Put else OptType.Call
      let sign : Int := if short then -1 else 1
      let strike := row.1
      let implied_volatility := row.2.1
      let cost := row.2.2
      let option : Leg := ⟨opt_type, sign, strike, implied_volatility, cost⟩
      let side : Int := if opt_type = OptType.Call then 1 else -1
      let days := flooredDays daysRaw
      if s.greeksA = none then
        let g := add_and_show_greeks gf s.current_price implied_volatility strike
          (days / 365) side
        let s2 : HedgeState := { s with optionA := some option, greeksA := some g }
        let sc : Option SolverArgs :=
          if s2.greeksA.isSome && s2.greeksB.isSome then
            some ⟨s2.amount, opt_type, greeksOf s2, sign⟩
          else none
        (s2, AddResult.added Slot.A option side (days / 365) g sc)
      else if s.greeksB = none then
        let g := add_and_show_greeks gf s.current_price implied_volatility strike
          (days / 365) side
        let s2 : HedgeState := { s with optionB := some option, greeksB := some g }
        let sc : Option SolverArgs :=
          if s2.greeksA.isSome && s2.greeksB.isSome then
            some ⟨s2.amount, opt_type, greeksOf s2, sign⟩
          else none
        (s2, AddResult.added Slot.B option side (days / 365) g sc)
      else
        (s, AddResult.slotsFull)

/-- The `option_name` handed to `rmv -o`, resolved against the keys of
`self.options`: the two slot names, the `"Portfolio"` key (present until an
`rmv --all` replaces the dict), or any other string. -/
inductive RmvTarget
  | A
  | B
  | portfolioName
  | other
deriving DecidableEq

/-- Outcome of one `rmv` command: the "Please add Options" message, a
successful clearing, or the "... is not an option." message. -/
inductive RmvResult
  | noOptions
  | cleared
  | notAnOption
deriving DecidableEq

/-- `HedgeController.call_rmv`.  With both slots empty it only prints a
message.  `--all` replaces `self.options` wholesale by
`{"Option A": {}, "Option B": {}}` — note that `self.greeks` is NOT touched on
this path, while the single-slot path clears both `self.options[name]` and
`self.greeks[name]`.  A name that is a key of `self.options` (which includes
`"Portfolio"` until an `--all` dropped it) gets its entries emptied; any other
name prints "is not an option". -/
def call_rmv (all : Bool) (target : RmvTarget) (s : HedgeState) :
    HedgeState × RmvResult :=
  if s.optionA = none ∧ s.optionB = none then
    (s, RmvResult.noOptions)
  else if all then
    ({ s with optionA := none, optionB := none, portfolioKey := false },
      RmvResult.cleared)
  else
    match target with
    | RmvTarget.A => ({ s with optionA := none, greeksA := none }, RmvResult.cleared)
    | RmvTarget.B => ({ s with optionB := none, greeksB := none }, RmvResult.cleared)
    | RmvTarget.portfolioName =>
        if s.portfolioKey then
          ({ s with greeksPortfolio := none }, RmvResult.cleared)
        else
          (s, RmvResult.notAnOption)
    | RmvTarget.other => (s, RmvResult.notAnOption)

/-- Record of one `pick`: whether the strike scan found a matching row,
the implied volatility actually read (`iloc[index]`, which is the LAST row when
the scan left `index = -1`), the `side` and `days/365` arguments passed to the
Greeks calculator, and the Greeks triple written to
`self.greeks["Portfolio"]`. -/
structure PickResult where
  matched : Bool
  ivUsed : ℚ
  sidePassed : Int
  tPassed : ℚ
  storedGreeks : Greeks
deriving DecidableEq

/-- The strike scan of `call_pick`: `index = -1`, then a linear scan that
breaks at the first row whose strike equals the requested one, then
`impliedVolatility.iloc[index]`.  When no row matches, `iloc[-1]` silently
reads the LAST row; on an empty frame it raises (modelled as `none`). -/
def chainIV (rows : List ChainRow) (k : ℚ) : Option (Bool × ℚ) :=
  match rows.find? (fun r => r.1 == k) with
  | some r => some (true, r.2.1)
  | none => rows.getLast?.map (fun r => (false, r.2.1))

/-- `HedgeController.call_pick`: records the underlying position fields
(`self.underlying`, `self.side`, `self.amount`, `self.strike`), floors the day
count, looks the strike up in the puts chain for side `Put` and the calls chain
otherwise, and overwrites `self.greeks["Portfolio"]` with the triple returned
by `add_hedge_option(self.current_price, implied_volatility, float(self.strike),
days / 365, side)`.  There is no error path for a missing strike. -/
def call_pick (gf : GreeksFn) (daysRaw : ℚ) (strikeArg : ℚ)
    (underlyingType : USide) (sideType : OptType) (amountArg : ℚ)
    (s : HedgeState) : Option (HedgeState × PickResult) :=
  let underlying : Int := if underlyingType = USide.Short then -1 else 1
  let side : Int := if sideType = OptType.Put then -1 else 1
  let days := flooredDays daysRaw
  let rows := if sideType = OptType.Put then s.puts else s.calls
  match chainIV rows strikeArg with
  | none => none
  | some (matched, implied_volatility) =>
    let g := gf s.current_price implied_volatility strikeArg (days / 365) side
    some ({ s with
              underlying := underlying,
              side := some sideType,
              amount := amountArg,
              strike := strikeArg,
              greeksPortfolio := some g },
          ⟨matched, implied_volatility, side, days / 365, g⟩)

/-- Outcome of one `sop` command: the "Please add Options" guidance message, or
the positions table together with the `show_calculated_hedge` call made when
both slots' Greeks hold a `"Delta"` (if any). -/
inductive SopResult
  | noOptions
  | shown (solverCall : Option SolverArgs)
deriving DecidableEq

/-- The `show_calculated_hedge` call recorded in a `SopResult`, if any. -/
def SopResult.solverCall : SopResult → Option SolverArgs
  | SopResult.shown sc => sc
  | _ => none

/-- `HedgeController.call_sop`: with both slots empty prints the "Please add
Options" guidance; otherwise shows the positions table and, when both slots'
Greeks hold a `"Delta"`, calls `show_calculated_hedge(self.amount,
self.options["Option A"]["type"], self.greeks, self.options["Option A"]["sign"])`.
Reading `["type"]` from an empty `self.options["Option A"]` dict raises a
`KeyError` (modelled as `none`).  The command writes no state. -/
def call_sop (s : HedgeState) : Option SopResult :=
  if s.optionA = none ∧ s.optionB = none then
    some SopResult.noOptions
  else if s.greeksA.isSome && s.greeksB.isSome then
    match s.optionA with
    | some legA =>
        some (SopResult.shown (some ⟨s.amount, legA.type, greeksOf s, legA.sign⟩))
    | none => none
  else
    some (SopResult.shown none)

/-- The argument tuple of the `plot_payoff` call made by `call_plot`:
`(self.current_price, [self.options["Option A"], self.options["Option B"]],
self.underlying, self.ticker, self.expiration)` (ticker and expiration are
constant strings, not modelled). -/
structure PlotArgs where
  current_price : ℚ
  optionA : Option Leg
  optionB : Option Leg
  underlying : Int
deriving DecidableEq

/-- `HedgeController.call_plot`: unconditionally invokes the external payoff
renderer `plot_payoff` with the current slots — there is no check on how many
legs are stored.  The command writes no state. -/
def call_plot (s : HedgeState) : PlotArgs :=
  ⟨s.current_price, s.optionA, s.optionB, s.underlying⟩

/-!
Reachability: the session states that can arise from a fresh controller by any
sequence of `pick` / `add` / `rmv` commands (`sop` and `plot` write no state).
-/

/-- States reachable from a fresh `HedgeController` under the external Greeks
calculator `gf`, by any sequence of commands with any arguments and any day
counts. -/
inductive Reachable (gf : GreeksFn) : HedgeState → Prop
  | init (calls puts : List ChainRow) (price : ℚ) :
      Reachable gf (initState calls puts price)
  | pick (s s2 : HedgeState) (r : PickResult) (d k amt : ℚ) (u : USide)
      (sd : OptType) (hs : Reachable gf s)
      (h : call_pick gf d k u sd amt s = some (s2, r)) : Reachable gf s2
  | add (s : HedgeState) (d : ℚ) (p sh : Bool) (i : ℕ) (hs : Reachable gf s) :
      Reachable gf (call_add gf d p sh i s).1
  | rmv (s : HedgeState) (a : Bool) (t : RmvTarget) (hs : Reachable gf s) :
      Reachable gf (call_rmv a t s).1

/-- Slot invariant: a stored Leg always has stored Greeks.  (The converse
fails: the `--all` branch of `rmv` clears the Legs but not their Greeks.) -/
def Inv (s : HedgeState) : Prop :=
  (s.optionA.isSome → s.greeksA.isSome) ∧ (s.optionB.isSome → s.greeksB.isSome)

theorem inv_initState (calls puts : List ChainRow) (price : ℚ) :
    Inv (initState calls puts price) := by
  constructor <;> simp [initState]

theorem inv_call_add (gf : GreeksFn) (d : ℚ) (p sh : Bool) (i : ℕ)
    (s : HedgeState) (h : Inv s) : Inv (call_add gf d p sh i s).1 := by
  obtain ⟨h1, h2⟩ := h
  simp only [call_add]
  split
  · exact ⟨h1, h2⟩
  · split
    · exact ⟨h1, h2⟩
    · split
      · exact ⟨by simp, by simpa using h2⟩
      · split
        · exact ⟨by simpa using h1, by simp⟩
        · exact ⟨h1, h2⟩

theorem inv_call_rmv (a : Bool) (t : RmvTarget) (s : HedgeState) (h : Inv s) :
    Inv (call_rmv a t s).1 := by
  obtain ⟨h1, h2⟩ := h
  simp only [call_rmv]
  split
  · exact ⟨h1, h2⟩
  · split
    · exact ⟨by simp, by simp⟩
    · split
      · exact ⟨by simp, by simpa using h2⟩
      · exact ⟨by simpa using h1, by simp⟩
      · split
        · exact ⟨by simpa using h1, by simpa using h2⟩
        · exact ⟨h1, h2⟩
      · exact ⟨h1, h2⟩

theorem inv_call_pick (gf : GreeksFn) (d k amt : ℚ) (u : USide) (sd : OptType)
    (s s2 : HedgeState) (r : PickResult)
    (hp : call_pick gf d k u sd amt s = some (s2, r)) (h : Inv s) : Inv s2 := by
  obtain ⟨h1, h2⟩ := h
  simp only [call_pick] at hp
  split at hp
  · exact absurd hp (by simp)
  · simp only [Option.some.injEq, Prod.mk.injEq] at hp
    obtain ⟨hs2, _⟩ := hp
    subst hs2
    exact ⟨by simpa using h1, by simpa using h2⟩

/-- Every reachable state satisfies the slot invariant. -/
theorem reachable_inv (gf : GreeksFn) (s : HedgeState) (h : Reachable gf s) :
    Inv s := by
  induction h with
  | init calls puts price => exact inv_initState calls puts price
  | pick s s2 r d k amt u sd hs hp ih => exact inv_call_pick gf d k amt u sd s s2 r hp ih
  | add s d p sh i hs ih => exact inv_call_add gf d p sh i s ih
  | rmv s a t hs ih => exact inv_call_rmv a t s ih

/-!
Concrete scenario data used by witnesses, counterexamples and failing-input
evaluations.  `gfProbe` is a probe Greeks calculator that records the implied
volatility, strike and time arguments it was called with, so the theorems can
read off which chain row and day count actually reached the calculator.
-/

/-- Probe Greeks calculator: Delta records the implied volatility argument,
Gamma the strike, Vega the time-to-expiry. -/
def gfProbe : GreeksFn := fun _ implied_volatility strike t _ =>
  ⟨implied_volatility, strike, t⟩

/-- A one-row calls chain: strike 10, implied volatility 1/2, last price 1. -/
def calls0 : List ChainRow := [(10, 1 / 2, 1)]

/-- A one-row puts chain: strike 10, implied volatility 3/5, last price 2. -/
def puts0 : List ChainRow := [(10, 3 / 5, 2)]

/-- A two-row puts chain with strikes 10 and 20 (no strike 15). -/
def puts1 : List ChainRow := [(10, 1 / 10, 1), (20, 2 / 10, 2)]

/-- The state after a `pick`, for building concrete scenarios (identity when
the pick raised; the scenarios below all pick a strike present in the chain). -/
def runPick (gf : GreeksFn) (d k : ℚ) (u : USide) (sd : OptType) (amt : ℚ)
    (s : HedgeState) : HedgeState :=
  match call_pick gf d k u sd amt s with
  | some (s2, _) => s2
  | none => s

/-- Fresh session on the one-row chains at spot price 100. -/
def scen0 : HedgeState := initState calls0 puts0 100

/-- After `pick 10 Long Call 1000` (5 days to expiry). -/
def scen1 : HedgeState := runPick gfProbe 5 10 USide.Long OptType.Call 1000 scen0

/-- After a further `add` of a long call (identifier 0): slot A filled. -/
def scen2 : HedgeState := (call_add gfProbe 5 false false 0 scen1).1

/-- After a further `add` of a short put (identifier 0): slot B filled. -/
def scen3 : HedgeState := (call_add gfProbe 5 true true 0 scen2).1

example : scen1.greeksPortfolio = some ⟨1 / 2, 10, 5 / 365⟩ := by with_unfolding_all decide

example : scen2.optionA = some ⟨OptType.Call, 1, 10, 1 / 2, 1⟩ := by with_unfolding_all decide

example : scen3.optionB = some ⟨OptType.Put, -1, 10, 3 / 5, 2⟩ := by with_unfolding_all decide

example :
    (call_add gfProbe 5 true true 0 scen2).2.solverCall =
      some ⟨1000, OptType.Put,
        ⟨some ⟨1 / 2, 10, 5 / 365⟩, some ⟨1 / 2, 10, 5 / 365⟩,
          some ⟨3 / 5, 10, 5 / 365⟩⟩, -1⟩ := by with_unfolding_all decide

/-- After `rmv "Option A"` from the two-leg state: slot A and its Greeks both
cleared, slot B intact. -/
def scen4 : HedgeState := (call_rmv false RmvTarget.A scen3).1

/-- After a further `add` of a long call from `scen4`: the pair is completed
by REFILLING slot A. -/
def scen5 : HedgeState := (call_add gfProbe 5 false false 0 scen4).1

/-- Probe solver returning fixed weights, used by the C4 witness. -/
def chProbe : CalcHedge := fun _ _ _ _ => ⟨1, 2, 3, true⟩

/-- C4: `show_calculated_hedge` prints the "can not be solved" message exactly
when the three weights returned by `calc_hedge` sum to zero; when the sum is
non-zero it displays the three weights, together with the
first-feasible-solution warning exactly when `is_singular` is true. -/
theorem C4_hedge_display (ch : CalcHedge) (amount : ℚ) (side : OptType)
    (greeks : GreeksDict) (sign : Int) :
    (show_calculated_hedge ch amount side greeks sign = HedgeDisplay.unsolvable ↔
      (ch amount side greeks sign).weight_option_a +
        (ch amount side greeks sign).weight_option_b +
        (ch amount side greeks sign).weight_shares = 0) ∧
    ((ch amount side greeks sign).weight_option_a +
        (ch amount side greeks sign).weight_option_b +
        (ch amount side greeks sign).weight_shares ≠ 0 →
      show_calculated_hedge ch amount side greeks sign =
        HedgeDisplay.weights (ch amount side greeks sign).weight_option_a
          (ch amount side greeks sign).weight_option_b
          (ch amount side greeks sign).weight_shares
          (ch amount side greeks sign).is_singular) := by
  simp only [show_calculated_hedge]
  constructor
  · split
    · simp_all
    · simp_all
  · intro h
    simp [h]

/-- Witness for C4: with the probe solver the weights sum to 6 ≠ 0, so the
three weights are displayed with the singular-matrix warning. -/
theorem C4_hedge_display_witness :
    show_calculated_hedge chProbe 0 OptType.Call ⟨none, none, none⟩ 1 =
      HedgeDisplay.weights 1 2 3 true :=
  (C4_hedge_display chProbe 0 OptType.Call ⟨none, none, none⟩ 1).2 (by norm_num [chProbe])

/-- C8: every `pick` (also a re-pick) overwrites the Portfolio Greeks with a
freshly computed triple and leaves both Leg slots and their Greeks
unchanged. -/
theorem C8_pick_frame (gf : GreeksFn) (d k amt : ℚ) (u : USide) (sd : OptType)
    (s s2 : HedgeState) (r : PickResult)
    (h : call_pick gf d k u sd amt s = some (s2, r)) :
    s2.optionA = s.optionA ∧ s2.optionB = s.optionB ∧
      s2.greeksA = s.greeksA ∧ s2.greeksB = s.greeksB ∧
      s2.greeksPortfolio = some r.storedGreeks ∧
      r.storedGreeks =
        gf s.current_price r.ivUsed k (flooredDays d / 365)
          (if sd = OptType.Put then -1 else 1) := by
  simp only [call_pick] at h
  split at h
  · exact absurd h (by simp)
  · simp only [Option.some.injEq, Prod.mk.injEq] at h
    obtain ⟨hs2, hr⟩ := h
    subst hs2
    subst hr
    exact ⟨rfl, rfl, rfl, rfl, rfl, rfl⟩

/-- The record of the pick performed in `scen1`. -/
def pickProbeResult : PickResult := ⟨true, 1 / 2, 1, 5 / 365, ⟨1 / 2, 10, 5 / 365⟩⟩

/-- Witness for C8 at the concrete `pick` of the scenario. -/
theorem C8_pick_frame_witness :
    scen1.optionA = scen0.optionA ∧ scen1.optionB = scen0.optionB ∧
      scen1.greeksA = scen0.greeksA ∧ scen1.greeksB = scen0.greeksB ∧
      scen1.greeksPortfolio = some pickProbeResult.storedGreeks ∧
      pickProbeResult.storedGreeks =
        gfProbe scen0.current_price pickProbeResult.ivUsed 10 (flooredDays 5 / 365)
          (if OptType.Call = OptType.Put then -1 else 1) :=
  C8_pick_frame gfProbe 5 10 1000 USide.Long OptType.Call scen0 scen1
    pickProbeResult (by with_unfolding_all decide)

/-- C7: both in `add` and in `sop`, the hedge-weight solve
`show_calculated_hedge` is invoked only when both the Option A Greeks and the
Option B Greeks are present (a `"Delta"` recorded for both slots) in the state
at the moment of the call; never with one or zero populated. -/
theorem C7_solver_needs_both_greeks (gf : GreeksFn) (d : ℚ) (p sh : Bool)
    (i : ℕ) (s : HedgeState) :
    ((call_add gf d p sh i s).2.solverCall.isSome →
      (call_add gf d p sh i s).1.greeksA.isSome ∧
        (call_add gf d p sh i s).1.greeksB.isSome) ∧
    (∀ r : SopResult, call_sop s = some r → r.solverCall.isSome →
      s.greeksA.isSome ∧ s.greeksB.isSome) := by
  constructor
  · simp only [call_add]
    split
    · simp [AddResult.solverCall]
    · split
      · simp [AddResult.solverCall]
      · split
        · dsimp only [AddResult.solverCall]
          split
          · intro _
            simp_all
          · simp
        · split
          · dsimp only [AddResult.solverCall]
            split
            · intro _
              simp_all
            · simp
          · simp [AddResult.solverCall]
  · intro r hr hsc
    simp only [call_sop] at hr
    split at hr
    · rw [← Option.some.injEq] at hr
      simp only [Option.some.injEq] at hr
      subst hr
      simp [SopResult.solverCall] at hsc
    · split at hr
      · split at hr
        · simp only [Option.some.injEq] at hr
          subst hr
          simp_all
        · exact absurd hr (by simp)
      · simp only [Option.some.injEq] at hr
        subst hr
        simp [SopResult.solverCall] at hsc

/-- Witness for C7: the completing `add` of the scenario makes a solver call,
and both Greeks slots are indeed populated; likewise for `sop` on the
resulting two-leg state. -/
theorem C7_solver_needs_both_greeks_witness :
    ((call_add gfProbe 5 true true 0 scen2).1.greeksA.isSome ∧
      (call_add gfProbe 5 true true 0 scen2).1.greeksB.isSome) ∧
    (scen3.greeksA.isSome ∧ scen3.greeksB.isSome) :=
  ⟨(C7_solver_needs_both_greeks gfProbe 5 true true 0 scen2).1
      (by with_unfolding_all decide),
   (C7_solver_needs_both_greeks gfProbe 5 true true 0 scen3).2
      (SopResult.shown (some ⟨1000, OptType.Call, greeksOf scen3, 1⟩))
      (by with_unfolding_all decide) (by with_unfolding_all decide)⟩

/-- The Greeks an `add` stores do not depend on the long/short flag: the flag
is not among the arguments forwarded to the Greeks calculator. -/
theorem add_storedGreeks_sign_indep (gf : GreeksFn) (d : ℚ) (p : Bool) (i : ℕ)
    (s : HedgeState) :
    (call_add gf d p true i s).2.storedGreeks =
      (call_add gf d p false i s).2.storedGreeks := by
  cases hrow : (if p then s.puts else s.calls)[i]? with
  | none => simp [call_add, hrow, AddResult.storedGreeks]
  | some row =>
    by_cases h1 : s.greeksPortfolio = none
    · simp [call_add, hrow, h1, AddResult.storedGreeks]
    · by_cases h2 : s.greeksA = none
      · simp [call_add, hrow, h1, h2, AddResult.storedGreeks]
      · by_cases h3 : s.greeksB = none
        · simp [call_add, hrow, h1, h2, h3, AddResult.storedGreeks]
        · simp [call_add, hrow, h1, h2, h3, AddResult.storedGreeks]

/-- C9: on every successful `add`, the `side` passed to the Greeks calculator
is `1` exactly when the option type is a Call and `-1` exactly when it is a
Put; the long/short sign is recorded in the Leg but never reaches the
calculator, so the stored Greeks are the same for the long and the short
variant of the same option. -/
theorem C9_greeks_ignore_short_flag (gf : GreeksFn) (d : ℚ) (p sh : Bool)
    (i : ℕ) (s : HedgeState) (slot : Slot) (leg : Leg) (sd : Int) (t : ℚ)
    (g : Greeks) (sc : Option SolverArgs)
    (h : (call_add gf d p sh i s).2 = AddResult.added slot leg sd t g sc) :
    sd = (if leg.type = OptType.Call then 1 else -1) ∧
      leg.sign = (if sh then -1 else 1) ∧
      g = gf s.current_price leg.implied_volatility leg.strike t sd ∧
      (call_add gf d p true i s).2.storedGreeks =
        (call_add gf d p false i s).2.storedGreeks := by
  refine ⟨?_, ?_, ?_, add_storedGreeks_sign_indep gf d p i s⟩ <;>
  · simp only [call_add] at h
    split at h
    · exact absurd h (by simp)
    · split at h
      · exact absurd h (by simp)
      · split at h
        · simp only [AddResult.added.injEq] at h
          obtain ⟨-, hleg, hsd, ht, hg, -⟩ := h
          subst hleg
          subst hsd
          subst ht
          subst hg
          simp [add_and_show_greeks]
        · split at h
          · simp only [AddResult.added.injEq] at h
            obtain ⟨-, hleg, hsd, ht, hg, -⟩ := h
            subst hleg
            subst hsd
            subst ht
            subst hg
            simp [add_and_show_greeks]
          · exact absurd h (by simp)

/-- Witness for C9 at the short-put `add` of the scenario. -/
theorem C9_greeks_ignore_short_flag_witness :
    ((-1 : Int) = (if OptType.Put = OptType.Call then 1 else -1)) ∧
      ((Leg.mk OptType.Put (-1) 10 (3 / 5) 2).sign = (if true then -1 else 1)) ∧
      ((⟨3 / 5, 10, 5 / 365⟩ : Greeks) =
        gfProbe scen2.current_price
          (Leg.mk OptType.Put (-1) 10 (3 / 5) 2).implied_volatility
          (Leg.mk OptType.Put (-1) 10 (3 / 5) 2).strike (5 / 365) (-1)) ∧
      (call_add gfProbe 5 true true 0 scen2).2.storedGreeks =
        (call_add gfProbe 5 true false 0 scen2).2.storedGreeks :=
  C9_greeks_ignore_short_flag gfProbe 5 true true 0 scen2 Slot.B
    (Leg.mk OptType.Put (-1) 10 (3 / 5) 2) (-1) (5 / 365) ⟨3 / 5, 10, 5 / 365⟩
    (some ⟨1000, OptType.Put, greeksOf scen3, -1⟩) (by with_unfolding_all decide)

/-- C5: an `add` issued in a reachable state in which Portfolio Greeks are
absent, or in which both Leg slots are occupied, is rejected with a
user-visible message and changes no session state. -/
theorem C5_add_rejected (gf : GreeksFn) (d : ℚ) (p sh : Bool) (i : ℕ)
    (s : HedgeState) (hs : Reachable gf s)
    (h : s.greeksPortfolio = none ∨ (s.optionA.isSome ∧ s.optionB.isSome)) :
    (call_add gf d p sh i s).1 = s ∧
      ((call_add gf d p sh i s).2 = AddResult.invalidIndex ∨
        (call_add gf d p sh i s).2 = AddResult.noPick ∨
        (call_add gf d p sh i s).2 = AddResult.slotsFull) := by
  obtain ⟨h1, h2⟩ := reachable_inv gf s hs
  simp only [call_add]
  split
  · exact ⟨rfl, Or.inl rfl⟩
  · split
    · exact ⟨rfl, Or.inr (Or.inl rfl)⟩
    · rcases h with h | ⟨ha, hb⟩
      · simp_all
      · have hga := h1 ha
        have hgb := h2 hb
        split
        · simp_all
        · split
          · simp_all
          · exact ⟨rfl, Or.inr (Or.inr rfl)⟩

/-- Witness for C5 in the fresh state (no pick yet): the `add` is rejected and
the state is unchanged. -/
theorem C5_add_rejected_witness :
    (call_add gfProbe 5 false false 0 scen0).1 = scen0 ∧
      ((call_add gfProbe 5 false false 0 scen0).2 = AddResult.invalidIndex ∨
        (call_add gfProbe 5 false false 0 scen0).2 = AddResult.noPick ∨
        (call_add gfProbe 5 false false 0 scen0).2 = AddResult.slotsFull) :=
  C5_add_rejected gfProbe 5 false false 0 scen0 (Reachable.init calls0 puts0 100)
    (Or.inl rfl)

/-- C6 counterexample: in the one-leg state `scen2` (underlying picked, a
single call leg stored), `sop` is NOT rejected — it displays the position
table (with no solver call) — and `plot` DOES invoke the payoff renderer,
handing it the single leg and an empty slot. -/
theorem C6_counterexample :
    (scen2.optionA.isSome ∧ scen2.optionB = none) ∧
      call_sop scen2 = some (SopResult.shown none) ∧
      call_plot scen2 =
        ⟨100, some ⟨OptType.Call, 1, 10, 1 / 2, 1⟩, none, 1⟩ := by
  with_unfolding_all decide

/-- C6 amended: `sop` prints the add-options guidance message exactly when
BOTH Leg slots are empty (with one leg it proceeds to display it); `plot`
performs no leg-count check at all: it always invokes the payoff renderer
with the current slot contents.  Neither command writes any session state
(they return no state in the model because the source mutates none). -/
theorem C6_sop_guidance_iff_empty (s : HedgeState) :
    (call_sop s = some SopResult.noOptions ↔
      s.optionA = none ∧ s.optionB = none) ∧
      call_plot s = ⟨s.current_price, s.optionA, s.optionB, s.underlying⟩ := by
  constructor
  · constructor
    · intro h
      simp only [call_sop] at h
      split at h
      · assumption
      · split at h
        · split at h
          · simp_all
          · simp_all
        · simp_all
    · intro hab
      simp [call_sop, hab.1, hab.2]
  · rfl

/-- Witness for C6 at the one-leg scenario state: the guidance message is not
printed there, and `plot` is handed the slots as they are. -/
theorem C6_sop_guidance_iff_empty_witness :
    ¬(scen2.optionA = none ∧ scen2.optionB = none) ∧
      call_plot scen2 = ⟨scen2.current_price, scen2.optionA, scen2.optionB,
        scen2.underlying⟩ :=
  ⟨fun hab => by
      have h := (C6_sop_guidance_iff_empty scen2).1.2 hab
      revert h
      with_unfolding_all decide,
   (C6_sop_guidance_iff_empty scen2).2⟩

/-- C10 counterexample: `pick`, `add` long call (slot A), `add` short put
(slot B), `rmv "Option A"`, `add` long call again.  This last add completes
the pair by REFILLING slot A, so it passes the just-added slot-A leg's type
and sign — exactly what `sop` passes on the resulting state — even though the
two stored legs differ in both type and sign.  The claimed consequence
("different side/sign arguments for the same session state") fails. -/
theorem C10_counterexample :
    scen5.optionA = some ⟨OptType.Call, 1, 10, 1 / 2, 1⟩ ∧
      scen5.optionB = some ⟨OptType.Put, -1, 10, 3 / 5, 2⟩ ∧
      (call_add gfProbe 5 false false 0 scen4).2.solverCall =
        some ⟨1000, OptType.Call, greeksOf scen5, 1⟩ ∧
      call_sop scen5 =
        some (SopResult.shown (some ⟨1000, OptType.Call, greeksOf scen5, 1⟩)) := by
  with_unfolding_all decide

/-- A `sop` solver call carries the amount, the type and the sign recorded in
the Option A leg dict. -/
theorem sop_solver_args (s : HedgeState) (r : SopResult) (a : SolverArgs)
    (hr : call_sop s = some r) (ha : r.solverCall = some a) :
    ∃ legA, s.optionA = some legA ∧ a.amount = s.amount ∧
      a.side = legA.type ∧ a.sign = legA.sign := by
  simp only [call_sop] at hr
  split at hr
  · simp only [Option.some.injEq] at hr
    subst hr
    simp [SopResult.solverCall] at ha
  · split at hr
    · split at hr
      · rename_i legA heqA
        simp only [Option.some.injEq] at hr
        subst hr
        simp only [SopResult.solverCall, Option.some.injEq] at ha
        subst ha
        exact ⟨legA, heqA, rfl, rfl, rfl⟩
      · exact absurd hr (by simp)
    · simp only [Option.some.injEq] at hr
      subst hr
      simp [SopResult.solverCall] at ha

/-- An `add` solver call carries the amount, the type and the sign of the leg
just added. -/
theorem add_solver_args (gf : GreeksFn) (d : ℚ) (p sh : Bool) (i : ℕ)
    (s : HedgeState) (slot : Slot) (leg : Leg) (sd : Int) (t : ℚ) (g : Greeks)
    (a : SolverArgs)
    (h : (call_add gf d p sh i s).2 = AddResult.added slot leg sd t g (some a)) :
    a.amount = s.amount ∧ a.side = leg.type ∧ a.sign = leg.sign := by
  simp only [call_add] at h
  split at h
  · exact absurd h (by simp)
  · split at h
    · exact absurd h (by simp)
    · split at h
      · simp only [AddResult.added.injEq] at h
        obtain ⟨-, hleg, -, -, -, hsc⟩ := h
        subst hleg
        rw [Option.ite_none_right_eq_some, Option.some.injEq] at hsc
        obtain ⟨-, hX⟩ := hsc
        subst hX
        exact ⟨rfl, rfl, rfl⟩
      · split at h
        · simp only [AddResult.added.injEq] at h
          obtain ⟨-, hleg, -, -, -, hsc⟩ := h
          subst hleg
          rw [Option.ite_none_right_eq_some, Option.some.injEq] at hsc
          obtain ⟨-, hX⟩ := hsc
          subst hX
          exact ⟨rfl, rfl, rfl⟩
        · exact absurd h (by simp)

/-- An `add` that stores into slot B leaves slot A and the amount unchanged. -/
theorem add_slotB_frame (gf : GreeksFn) (d : ℚ) (p sh : Bool) (i : ℕ)
    (s : HedgeState) (leg : Leg) (sd : Int) (t : ℚ) (g : Greeks)
    (sc : Option SolverArgs)
    (h : (call_add gf d p sh i s).2 = AddResult.added Slot.B leg sd t g sc) :
    (call_add gf d p sh i s).1.optionA = s.optionA ∧
      (call_add gf d p sh i s).1.amount = s.amount := by
  cases hrow : (if p then s.puts else s.calls)[i]? with
  | none => simp [call_add, hrow] at h
  | some row =>
    by_cases h1 : s.greeksPortfolio = none
    · simp [call_add, hrow, h1] at h
    · by_cases h2 : s.greeksA = none
      · simp [call_add, hrow, h1, h2] at h
      · by_cases h3 : s.greeksB = none
        · simp [call_add, hrow, h1, h2, h3]
        · simp [call_add, hrow, h1, h2, h3] at h

/-- C10 amended: `sop` passes Option A's recorded type and sign to the solver,
and `add` passes the just-added leg's; consequently, when the completing `add`
stored its leg into slot B and the two legs differ in type or sign, `add` and
a subsequent `sop` on the resulting state pass different solver arguments.
(When the completing `add` refills slot A the two calls agree — see the
counterexample.) -/
theorem C10_solver_args (gf : GreeksFn) (d : ℚ) (p sh : Bool) (i : ℕ)
    (s : HedgeState) :
    (∀ (r : SopResult) (a : SolverArgs), call_sop s = some r →
        r.solverCall = some a →
        ∃ legA, s.optionA = some legA ∧ a.side = legA.type ∧
          a.sign = legA.sign) ∧
    (∀ (slot : Slot) (leg : Leg) (sd : Int) (t : ℚ) (g : Greeks)
        (a : SolverArgs),
        (call_add gf d p sh i s).2 = AddResult.added slot leg sd t g (some a) →
        a.side = leg.type ∧ a.sign = leg.sign) ∧
    (∀ (leg legA : Leg) (sd : Int) (t : ℚ) (g : Greeks) (a a2 : SolverArgs)
        (r : SopResult),
        (call_add gf d p sh i s).2 =
          AddResult.added Slot.B leg sd t g (some a) →
        s.optionA = some legA →
        (legA.type ≠ leg.type ∨ legA.sign ≠ leg.sign) →
        call_sop (call_add gf d p sh i s).1 = some r →
        r.solverCall = some a2 →
        a ≠ a2) := by
  refine ⟨?_, ?_, ?_⟩
  · intro r a hr ha
    obtain ⟨legA, hA, -, hside, hsign⟩ := sop_solver_args s r a hr ha
    exact ⟨legA, hA, hside, hsign⟩
  · intro slot leg sd t g a h
    obtain ⟨-, hside, hsign⟩ := add_solver_args gf d p sh i s slot leg sd t g a h
    exact ⟨hside, hsign⟩
  · intro leg legA sd t g a a2 r h hA hdiff hsop ha2 heq
    obtain ⟨-, haside, hasign⟩ :=
      add_solver_args gf d p sh i s Slot.B leg sd t g a h
    obtain ⟨hframe, -⟩ := add_slotB_frame gf d p sh i s leg sd t g (some a) h
    obtain ⟨legA2, hA2, -, ha2side, ha2sign⟩ :=
      sop_solver_args (call_add gf d p sh i s).1 r a2 hsop ha2
    rw [hframe, hA, Option.some.injEq] at hA2
    subst hA2
    rcases hdiff with hd | hd
    · apply hd
      rw [← ha2side, ← heq, haside]
    · apply hd
      rw [← ha2sign, ← heq, hasign]

/-- Witness for C10's amended statement on the normal two-leg scenario: the
completing `add` stored the short put into slot B, the legs differ, and the
two solver calls differ (Put/−1 from `add`, Call/+1 from `sop`). -/
theorem C10_solver_args_witness :
    (⟨1000, OptType.Put, greeksOf scen3, -1⟩ : SolverArgs) ≠
      ⟨1000, OptType.Call, greeksOf scen3, 1⟩ :=
  (C10_solver_args gfProbe 5 true true 0 scen2).2.2
    ⟨OptType.Put, -1, 10, 3 / 5, 2⟩ ⟨OptType.Call, 1, 10, 1 / 2, 1⟩
    (-1) (5 / 365) ⟨3 / 5, 10, 5 / 365⟩
    ⟨1000, OptType.Put, greeksOf scen3, -1⟩
    ⟨1000, OptType.Call, greeksOf scen3, 1⟩
    (SopResult.shown (some ⟨1000, OptType.Call, greeksOf scen3, 1⟩))
    (by with_unfolding_all decide) (by with_unfolding_all decide)
    (Or.inl (by with_unfolding_all decide)) (by with_unfolding_all decide)
    (by with_unfolding_all decide)

/-- C1 failing input: `pick`, one `add`, then `rmv --all`.  The `--all` branch
replaces `self.options` but leaves `self.greeks` untouched, so Option A's
Greeks survive the removal of its Leg — while the single-slot `rmv "Option A"`
from the same state clears the Leg and its Greeks together. -/
theorem C1_rmv_all_stale_greeks :
    (call_rmv true RmvTarget.other scen2).1.optionA = none ∧
      (call_rmv true RmvTarget.other scen2).1.optionB = none ∧
      (call_rmv true RmvTarget.other scen2).1.greeksA =
        some ⟨1 / 2, 10, 5 / 365⟩ ∧
      (call_rmv false RmvTarget.A scen2).1.optionA = none ∧
      (call_rmv false RmvTarget.A scen2).1.greeksA = none := by
  with_unfolding_all decide

/-- C2 failing input: `pick 15 Long Put 500` on a puts chain holding only
strikes 10 and 20.  The scan leaves `index = -1`, so `iloc[-1]` silently reads
the LAST row (strike 20, implied volatility 2/10); Portfolio Greeks are
computed from that unrelated row (the probe records its implied volatility as
Delta) and no error is reported. -/
theorem C2_pick_miss_uses_last_row :
    call_pick gfProbe 7 15 USide.Long OptType.Put 500
        (initState calls0 puts1 100) =
      some ({ initState calls0 puts1 100 with
                underlying := 1,
                side := some OptType.Put,
                amount := 500,
                strike := 15,
                greeksPortfolio := some ⟨2 / 10, 15, 7 / 365⟩ },
            ⟨false, 2 / 10, -1, 7 / 365, ⟨2 / 10, 15, 7 / 365⟩⟩) := by
  with_unfolding_all decide

/-- C3 failing input: an expiration already in the past gives the day count
`-1.0` (for example two calendar days ago).  `flooredDays` replaces only an
exactly-zero day count, so both `add` and `pick` pass the strictly negative
time `-1/365` on to the Greeks calculator. -/
theorem C3_negative_days_not_floored :
    flooredDays (-1) = -1 ∧
      flooredDays 0 = 1 / 100 ∧
      (call_add gfProbe (-1) false false 0 scen1).2.tPassed =
        some (-1 / 365) ∧
      (call_pick gfProbe (-1) 10 USide.Long OptType.Call 1000 scen0).map
          (fun x => x.2.tPassed) = some (-1 / 365) ∧
      (-1 : ℚ) / 365 < 0 := by
  with_unfolding_all decide

end HedgeSpec
